import Mathlib

/-
Verification of the numerical core of the algorand_compounder repository
(src/lib.rs): finite-difference derivatives, two extremum searches
(Newton and derivative-sign bisection), and the compounding-with-fees
financial model.

Embedding conventions.
Rust f64 values are modelled by the type FP: an exact rational together
with the IEEE special values nan, +inf and -inf.  Arithmetic on finite
values is exact rational arithmetic (rounding is abstracted away; every
claim under audit is about control flow, formula structure and
special-value propagation, none is about rounding error).  The IEEE
rules for special values are kept: operations involving nan yield nan,
inf - inf and 0 * inf and 0/0 yield nan, x/0 for finite nonzero x
yields a signed infinity, and every ordered comparison involving nan is
false.  The negative zero of IEEE is identified with zero; no claim
distinguishes them.
The f64 powf intrinsic is not part of this repository, so the financial
model takes the power function as an explicit parameter pw; theorems
about the model hold for every interpretation of pw, and witnesses
instantiate pw with powfModel, an exact but incomplete model of powf.
Decimal literals of the source (0.5, 0.0001, 0.0000001) are read as the
exact rationals they denote.
-/

/-- Idealized IEEE double: exact rationals plus the special values. -/
inductive FP where
  | fin : ℚ → FP
  | pinf : FP
  | ninf : FP
  | nan : FP
  deriving DecidableEq, Repr

namespace FP

/-- IEEE negation. -/
def neg : FP → FP
  | fin q => fin (-q)
  | pinf => ninf
  | ninf => pinf
  | nan => nan

/-- IEEE addition (exact on finite values). -/
def add : FP → FP → FP
  | nan, _ => nan
  | _, nan => nan
  | fin a, fin b => fin (a + b)
  | fin _, pinf => pinf
  | fin _, ninf => ninf
  | pinf, fin _ => pinf
  | ninf, fin _ => ninf
  | pinf, pinf => pinf
  | ninf, ninf => ninf
  | pinf, ninf => nan
  | ninf, pinf => nan

/-- IEEE subtraction, as addition of the negation (exact, so equal to
the IEEE difference). -/
def sub (x y : FP) : FP := add x (neg y)

/-- IEEE multiplication (exact on finite values); zero times an
infinity is nan. -/
def mul : FP → FP → FP
  | nan, _ => nan
  | _, nan => nan
  | fin a, fin b => fin (a * b)
  | fin a, pinf => if a = 0 then nan else if 0 < a then pinf else ninf
  | fin a, ninf => if a = 0 then nan else if 0 < a then ninf else pinf
  | pinf, fin b => if b = 0 then nan else if 0 < b then pinf else ninf
  | ninf, fin b => if b = 0 then nan else if 0 < b then ninf else pinf
  | pinf, pinf => pinf
  | ninf, ninf => pinf
  | pinf, ninf => ninf
  | ninf, pinf => ninf

/-- IEEE division (exact on finite values); division of a finite
nonzero value by zero gives a signed infinity, 0/0 and inf/inf give
nan. -/
def div : FP → FP → FP
  | nan, _ => nan
  | _, nan => nan
  | fin a, fin b =>
      if b = 0 then
        if a = 0 then nan else if 0 < a then pinf else ninf
      else fin (a / b)
  | fin _, pinf => fin 0
  | fin _, ninf => fin 0
  | pinf, fin b => if 0 ≤ b then pinf else ninf
  | ninf, fin b => if 0 ≤ b then ninf else pinf
  | pinf, pinf => nan
  | pinf, ninf => nan
  | ninf, pinf => nan
  | ninf, ninf => nan

/-- IEEE strict order as a Boolean: every comparison with nan is
false. -/
def ltb : FP → FP → Bool
  | nan, _ => false
  | _, nan => false
  | fin a, fin b => decide (a < b)
  | fin _, pinf => true
  | fin _, ninf => false
  | pinf, _ => false
  | ninf, fin _ => true
  | ninf, pinf => true
  | ninf, ninf => false

/-- IEEE absolute value. -/
def abs : FP → FP
  | fin q => fin |q|
  | pinf => pinf
  | ninf => pinf
  | nan => nan

/-- Finiteness test: true exactly on rational (non-nan, non-infinite)
values. -/
def isFinite : FP → Bool
  | fin _ => true
  | _ => false

instance : Neg FP := ⟨neg⟩
instance : Add FP := ⟨add⟩
instance : Sub FP := ⟨sub⟩
instance : Mul FP := ⟨mul⟩
instance : Div FP := ⟨div⟩

end FP

/-- Central-difference first derivative, from the Evaluate1D trait:
(eval(x + delta) - eval(x - delta)) / (2.0 * delta). -/
def first_derivative (f : FP → FP) (x delta : FP) : FP :=
  (f (x + delta) - f (x - delta)) / (FP.fin 2 * delta)

/-- Finite-difference second derivative, from the Evaluate1D trait:
(eval(x + delta) - (2.0 * eval(x)) + eval(x - delta)) / (delta * delta). -/
def second_derivative (f : FP → FP) (x delta : FP) : FP :=
  (f (x + delta) - FP.fin 2 * f x + f (x - delta)) / (delta * delta)

/-- One Newton update, x minus the first derivative divided by the
second derivative, from the body of search_extrema_newton. -/
def newton_update (f : FP → FP) (delta x : FP) : FP :=
  x - first_derivative f x delta / second_derivative f x delta

/-- Evaluate1D::search_extrema_newton: iterate the Newton update up to
max_iters times, returning the current point as soon as the first
derivative there is below epsilon in absolute value, and an absent
value if the budget is exhausted.  The Rust loop over 0..max_iters is
rendered as structural recursion on the remaining iteration count. -/
def search_extrema_newton (f : FP → FP) (x0 : FP) : ℕ → FP → FP → Option FP
  | 0, _, _ => none
  | n + 1, delta, epsilon =>
    let x1 := newton_update f delta x0
    if FP.ltb (FP.abs (first_derivative f x1 delta)) epsilon then some x1
    else search_extrema_newton f x1 n delta epsilon

/-- Evaluate1D::search_extrema_bisection: derivative-sign bisection on
a bracket, rendered as structural recursion on the remaining iteration
count; when the budget reaches zero the midpoint of the current
bracket is returned, matching the code after the Rust loop. -/
def search_extrema_bisection (f : FP → FP) : FP × FP → ℕ → FP → FP → Option FP
  | range, 0, _, _ => some ((range.2 - range.1) * FP.fin (1/2) + range.1)
  | range, n + 1, delta, epsilon =>
    let l := range.1
    let u := range.2
    let mid := (u - l) * FP.fin (1/2) + l
    let fl := first_derivative f l delta
    let fm := first_derivative f mid delta
    let fu := first_derivative f u delta
    let is_fl_pos := FP.ltb (FP.fin 0) fl
    let is_fu_pos := FP.ltb (FP.fin 0) fu
    let is_fm_pos := FP.ltb (FP.fin 0) fm
    if is_fl_pos = is_fu_pos then none
    else if FP.ltb (FP.abs fm) epsilon then some mid
    else if is_fm_pos ≠ is_fu_pos then
      search_extrema_bisection f (mid, u) n delta epsilon
    else if is_fl_pos ≠ is_fm_pos then
      search_extrema_bisection f (l, mid) n delta epsilon
    else none

/-- The body of the bisection loop in isolation: on a bracket it either
performs an early return (inl, carrying the returned optional value) or
narrows the bracket (inr).  This is the same code as one pass of
search_extrema_bisection, factored out so that theorems can speak about
a single iteration. -/
def bisect_step (f : FP → FP) (delta epsilon : FP) (range : FP × FP) :
    Option FP ⊕ (FP × FP) :=
  let l := range.1
  let u := range.2
  let mid := (u - l) * FP.fin (1/2) + l
  let fl := first_derivative f l delta
  let fm := first_derivative f mid delta
  let fu := first_derivative f u delta
  let is_fl_pos := FP.ltb (FP.fin 0) fl
  let is_fu_pos := FP.ltb (FP.fin 0) fu
  let is_fm_pos := FP.ltb (FP.fin 0) fm
  if is_fl_pos = is_fu_pos then Sum.inl none
  else if FP.ltb (FP.abs fm) epsilon then Sum.inl (some mid)
  else if is_fm_pos ≠ is_fu_pos then Sum.inr (mid, u)
  else if is_fl_pos ≠ is_fm_pos then Sum.inr (l, mid)
  else Sum.inl none

/-- Iterated narrowing: the bracket after n passes of the bisection
loop, provided no pass performed an early return (absent otherwise). -/
def bisect_narrow (f : FP → FP) (delta epsilon : FP) :
    ℕ → FP × FP → Option (FP × FP)
  | 0, range => some range
  | n + 1, range =>
    match bisect_step f delta epsilon range with
    | Sum.inl _ => none
    | Sum.inr r2 => bisect_narrow f delta epsilon n r2

/-- The k-th Newton iterate of search_extrema_newton starting from x. -/
def newton_iterate (f : FP → FP) (delta : FP) : ℕ → FP → FP
  | 0, x => x
  | n + 1, x => newton_iterate f delta n (newton_update f delta x)

/-- search_extrema_newton instrumented with the number of loop passes
executed, to state the iteration-budget bound. -/
def search_extrema_newton_instr (f : FP → FP) (x0 : FP) :
    ℕ → FP → FP → Option FP × ℕ
  | 0, _, _ => (none, 0)
  | n + 1, delta, epsilon =>
    let x1 := newton_update f delta x0
    if FP.ltb (FP.abs (first_derivative f x1 delta)) epsilon then (some x1, 1)
    else
      let r := search_extrema_newton_instr f x1 n delta epsilon
      (r.1, r.2 + 1)

/-- search_extrema_bisection instrumented with the number of loop
passes executed, to state the iteration-budget bound. -/
def search_extrema_bisection_instr (f : FP → FP) :
    FP × FP → ℕ → FP → FP → Option FP × ℕ
  | range, 0, _, _ => (some ((range.2 - range.1) * FP.fin (1/2) + range.1), 0)
  | range, n + 1, delta, epsilon =>
    match bisect_step f delta epsilon range with
    | Sum.inl v => (v, 1)
    | Sum.inr r2 =>
      let r := search_extrema_bisection_instr f r2 n delta epsilon
      (r.1, r.2 + 1)

/-- CompoundModelCoefs from src/lib.rs: years, rate, avg_fees,
initial_principal. -/
structure CompoundModelCoefs where
  years : FP
  rate : FP
  avg_fees : FP
  initial_principal : FP
  deriving DecidableEq, Repr

/-- Function1DAnalytic from src/lib.rs, at the function type it is
instantiated with in AlgoInterestModel: a formula together with its
coefficients. -/
structure Function1DAnalytic (CoefsType : Type) where
  func : FP → CoefsType → FP
  coefs : CoefsType

/-- AlgoInterestModel::projected_wallet_price, the closed-form
compounding-with-fees formula.  The f64 powf intrinsic is passed in as
the parameter pw. -/
def projected_wallet_price (pw : FP → FP → FP)
    (collections_per_year : FP) (coefs : CompoundModelCoefs) : FP :=
  let g := pw (coefs.rate / collections_per_year + FP.fin 1) collections_per_year
  coefs.initial_principal * pw g coefs.years -
    collections_per_year * coefs.avg_fees * (pw g coefs.years - FP.fin 1) /
      (g - FP.fin 1)

/-- AlgoInterestModel from src/lib.rs: a Function1DAnalytic holding the
projected_wallet_price formula and one coefficient set. -/
structure AlgoInterestModel where
  model : Function1DAnalytic CompoundModelCoefs

/-- AlgoInterestModel::new. -/
def AlgoInterestModel.new (pw : FP → FP → FP) (coefs : CompoundModelCoefs) :
    AlgoInterestModel :=
  ⟨⟨projected_wallet_price pw, coefs⟩⟩

/-- The Evaluate1D impl for AlgoInterestModel: delegate to the stored
formula applied to the stored coefficients. -/
def AlgoInterestModel.eval (m : AlgoInterestModel) (x : FP) : FP :=
  m.model.func x m.model.coefs

/-- AlgoInterestModel::get_ideal_reward_wait_time: bisect on the
bracket (1.0, 1000000000.0) with 64 iterations, delta 0.0001 and
epsilon 0.0000001, then convert the optimal collections-per-year into
seconds. -/
def AlgoInterestModel.get_ideal_reward_wait_time (m : AlgoInterestModel) :
    Option FP :=
  (search_extrema_bisection m.eval (FP.fin 1, FP.fin 1000000000) 64
      (FP.fin (1/10000)) (FP.fin (1/10000000))).map
    (fun optimal_collections_per_year =>
      FP.fin 365 / optimal_collections_per_year * FP.fin 24 * FP.fin 3600)

/-- Partial, exact model of the f64 powf intrinsic, used only to
instantiate the abstract power parameter pw in witnesses and
counterexamples.  It follows the IEEE special cases for a zero
exponent and for base one, evaluates integer exponents of finite
rational bases exactly, and returns nan in the remaining cases, which
no witness exercises. -/
def powfModel (x y : FP) : FP :=
  match y with
  | FP.fin e =>
    if e = 0 then FP.fin 1
    else if x = FP.fin 1 then FP.fin 1
    else
      match x with
      | FP.fin a =>
        if e.den = 1 then
          if a = 0 then (if 0 < e.num then FP.fin 0 else FP.pinf)
          else FP.fin (a ^ e.num)
        else FP.nan
      | _ => FP.nan
  | _ => if x = FP.fin 1 then FP.fin 1 else FP.nan

/-- The projected-value formula exactly as the specification words it:
let g = (1 + rate/n)^n; result = principal * g^years
- (n * avg_fees) * (g^years - 1) / (g - 1).  Stated for comparison
with the source definition projected_wallet_price. -/
def spec_projected_value (pw : FP → FP → FP)
    (n : FP) (coefs : CompoundModelCoefs) : FP :=
  let g := pw (FP.fin 1 + coefs.rate / n) n
  coefs.initial_principal * pw g coefs.years -
    n * coefs.avg_fees * (pw g coefs.years - FP.fin 1) /
      (g - FP.fin 1)

/-- Degenerate coefficient set with zero rate (g = 1) and zero fees:
one year, principal 100. -/
def cdeg : CompoundModelCoefs :=
  ⟨FP.fin 1, FP.fin 0, FP.fin 0, FP.fin 100⟩

/-- Fee-free coefficient set with nonzero rate: two years, rate 1/10,
principal 100. -/
def cfee0 : CompoundModelCoefs :=
  ⟨FP.fin 2, FP.fin (1/10), FP.fin 0, FP.fin 100⟩

/-- The downward parabola with vertex at 3, used as a concrete
evaluable function: f x = -(x - 3)^2. -/
def quadDown (x : FP) : FP :=
  FP.fin 0 - (x - FP.fin 3) * (x - FP.fin 3)

/-- Unfolding lemma for the addition instance. -/
theorem FP.add_def (x y : FP) : x + y = FP.add x y := rfl

/-- Unfolding lemma for the subtraction instance. -/
theorem FP.sub_def (x y : FP) : x - y = FP.sub x y := rfl

/-- Unfolding lemma for the multiplication instance. -/
theorem FP.mul_def (x y : FP) : x * y = FP.mul x y := rfl

/-- Unfolding lemma for the division instance. -/
theorem FP.div_def (x y : FP) : x / y = FP.div x y := rfl

/-- Evaluation rule: addition of finite values. -/
@[simp] theorem FP.add_fin (a b : ℚ) : FP.fin a + FP.fin b = FP.fin (a + b) := rfl

/-- Evaluation rule: subtraction of finite values. -/
@[simp] theorem FP.sub_fin (a b : ℚ) : FP.fin a - FP.fin b = FP.fin (a - b) := by
  show FP.add (FP.fin a) (FP.neg (FP.fin b)) = _
  simp [FP.add, FP.neg, sub_eq_add_neg]

/-- Evaluation rule: multiplication of finite values. -/
@[simp] theorem FP.mul_fin (a b : ℚ) : FP.fin a * FP.fin b = FP.fin (a * b) := rfl

/-- Evaluation rule: division of finite values with nonzero divisor. -/
@[simp] theorem FP.div_fin (a b : ℚ) (h : b ≠ 0) :
    FP.fin a / FP.fin b = FP.fin (a / b) := by
  show FP.div (FP.fin a) (FP.fin b) = _
  simp [FP.div, h]

/-- Evaluation rule: strict comparison of finite values. -/
@[simp] theorem FP.ltb_fin (a b : ℚ) :
    FP.ltb (FP.fin a) (FP.fin b) = decide (a < b) := rfl

/-- Evaluation rule: absolute value of a finite value. -/
@[simp] theorem FP.abs_fin (a : ℚ) : (FP.fin a).abs = FP.fin |a| := rfl

/-- Addition of idealized doubles is commutative. -/
theorem FP.add_comm (x y : FP) : x + y = y + x := by
  cases x <;> cases y <;> (simp [FP.add_def, FP.add]; try ring)

/-- Multiplying by one half agrees with dividing by two, so the two
midpoint expressions of source and specification coincide. -/
theorem FP.half_mid (d l : FP) : d * FP.fin (1/2) + l = l + d / FP.fin 2 := by
  cases d <;> cases l <;>
    (norm_num [FP.add_def, FP.mul_def, FP.div_def, FP.add, FP.mul, FP.div];
     try ring)

/-- Dividing anything by the finite value zero never produces a finite
value. -/
theorem FP.div_zero_not_finite (x : FP) :
    (x / FP.fin 0).isFinite = false := by
  cases x <;> (simp [FP.div_def, FP.div, FP.isFinite]; try split_ifs) <;>
    simp [FP.isFinite]

/-- Subtracting a non-finite value never produces a finite value. -/
theorem FP.sub_not_finite (a d : FP) (h : d.isFinite = false) :
    (a - d).isFinite = false := by
  cases d with
  | fin q => simp [FP.isFinite] at h
  | pinf => cases a <;> rfl
  | ninf => cases a <;> rfl
  | nan => cases a <;> rfl

/-- Subtracting the finite zero is the identity. -/
theorem FP.sub_zero_right (x : FP) : x - FP.fin 0 = x := by
  cases x <;> simp [FP.sub_def, FP.sub, FP.neg, FP.add_def, FP.add]

/-- A finite value minus itself is the finite zero. -/
theorem FP.sub_self_fin (q : ℚ) : FP.fin q - FP.fin q = FP.fin 0 := by
  simp [FP.sub_def, FP.sub, FP.neg, FP.add_def, FP.add]

/-- One pass of search_extrema_bisection is exactly one bisect_step:
an early return yields its value, a narrowing continues with the
smaller bracket and one fewer iteration. -/
theorem bisection_succ (f : FP → FP) (r : FP × FP) (n : ℕ)
    (delta epsilon : FP) :
    search_extrema_bisection f r (n + 1) delta epsilon =
      (match bisect_step f delta epsilon r with
       | Sum.inl v => v
       | Sum.inr r2 => search_extrema_bisection f r2 n delta epsilon) := by
  simp only [search_extrema_bisection, bisect_step]
  split_ifs <;> rfl

/-- C1: for every power interpretation and every coefficient set,
get_ideal_reward_wait_time runs search_extrema_bisection on the
projected-value function over the bracket (1, 1000000000) with 64
iterations, delta 1/10000 and epsilon 1/10000000, and maps a found
frequency t to (365 / t) * 24 * 3600 seconds; an absent search result
is propagated as an absent wait time (Option.map of none is none). -/
theorem claim1_wait_time_composition (pw : FP → FP → FP)
    (coefs : CompoundModelCoefs) :
    (AlgoInterestModel.new pw coefs).get_ideal_reward_wait_time =
      Option.map (fun t => FP.fin 365 / t * FP.fin 24 * FP.fin 3600)
        (search_extrema_bisection (fun x => projected_wallet_price pw x coefs)
          (FP.fin 1, FP.fin 1000000000) 64
          (FP.fin (1/10000)) (FP.fin (1/10000000))) := rfl

/-- C9: with a zero iteration budget, search_extrema_bisection returns
the midpoint l + (u - l) / 2 of the unexamined input bracket for every
function, never an absent value; the function f does not occur on the
right-hand side, so the function is not consulted at all. -/
theorem claim9_zero_iters_midpoint (f : FP → FP) (l u delta epsilon : FP) :
    search_extrema_bisection f (l, u) 0 delta epsilon =
      some (l + (u - l) / FP.fin 2) := by
  simp only [search_extrema_bisection]
  rw [FP.half_mid]

/-- C6: search_extrema_newton performs the update
x1 = x0 - fd(x0)/fdd(x0) with finite-difference first and second
derivatives fd and fdd at step delta, returns x1 as soon as the first derivative there is below
epsilon in absolute value, otherwise continues with x1 and one fewer
remaining iteration, and returns an absent value when the budget is
exhausted; a zero second derivative takes the same division path as
any other value, with no special case. -/
theorem claim6_newton_iteration :
    (∀ (f : FP → FP) (x0 delta epsilon : FP),
      search_extrema_newton f x0 0 delta epsilon = none) ∧
    (∀ (f : FP → FP) (x0 : FP) (n : ℕ) (delta epsilon : FP),
      search_extrema_newton f x0 (n + 1) delta epsilon =
        (if FP.ltb (FP.abs (first_derivative f
              (x0 - first_derivative f x0 delta / second_derivative f x0 delta)
              delta)) epsilon then
          some (x0 - first_derivative f x0 delta / second_derivative f x0 delta)
        else
          search_extrema_newton f
            (x0 - first_derivative f x0 delta / second_derivative f x0 delta)
            n delta epsilon)) := by
  refine ⟨fun f x0 delta epsilon => rfl, fun f x0 n delta epsilon => ?_⟩
  simp only [search_extrema_newton, newton_update]

/-- C3: each iteration of search_extrema_bisection on a bracket (l, u)
computes the midpoint l + (u - l) / 2, returns an absent value when
the first-derivative estimates at l and u have the same sign, returns
the midpoint when the derivative estimate there is below epsilon in
absolute value, otherwise narrows to (mid, u) when the signs at mid
and u disagree, to (l, mid) when the signs at l and mid disagree, and
returns an absent value when neither half shows a sign mismatch. -/
theorem claim3_bisection_iteration (f : FP → FP) (l u : FP) (n : ℕ)
    (delta epsilon : FP) :
    search_extrema_bisection f (l, u) (n + 1) delta epsilon =
      (if FP.ltb (FP.fin 0) (first_derivative f l delta) =
          FP.ltb (FP.fin 0) (first_derivative f u delta) then none
       else if FP.ltb
          (FP.abs (first_derivative f (l + (u - l) / FP.fin 2) delta))
          epsilon then some (l + (u - l) / FP.fin 2)
       else if FP.ltb (FP.fin 0)
            (first_derivative f (l + (u - l) / FP.fin 2) delta) ≠
          FP.ltb (FP.fin 0) (first_derivative f u delta) then
        search_extrema_bisection f (l + (u - l) / FP.fin 2, u) n delta epsilon
       else if FP.ltb (FP.fin 0) (first_derivative f l delta) ≠
          FP.ltb (FP.fin 0)
            (first_derivative f (l + (u - l) / FP.fin 2) delta) then
        search_extrema_bisection f (l, l + (u - l) / FP.fin 2) n delta epsilon
       else none) := by
  simp only [search_extrema_bisection]
  rw [FP.half_mid]

/-- C4: whenever the first-derivative estimates at the two bracket
endpoints have the same sign classification, search_extrema_bisection
with a positive iteration budget returns an absent value by the early
exit of its first iteration. -/
theorem claim4_same_sign_none (f : FP → FP) (l u : FP) (n : ℕ)
    (delta epsilon : FP)
    (h : FP.ltb (FP.fin 0) (first_derivative f l delta) =
      FP.ltb (FP.fin 0) (first_derivative f u delta)) :
    search_extrema_bisection f (l, u) (n + 1) delta epsilon = none := by
  simp only [search_extrema_bisection]
  rw [if_pos h]

/-- C4 witness: the strictly monotonic function f x = x over the
bracket (1, 1000000000) used by the model, with the same iteration
budget 64 and tolerances, is rejected with an absent value. -/
theorem claim4_same_sign_none_witness :
    search_extrema_bisection (fun x => x) (FP.fin 1, FP.fin 1000000000) 64
      (FP.fin (1/10000)) (FP.fin (1/10000000)) = none :=
  claim4_same_sign_none (fun x => x) (FP.fin 1) (FP.fin 1000000000) 63
    (FP.fin (1/10000)) (FP.fin (1/10000000)) (by norm_num [first_derivative])

/-- C10: the bisection classifies the derivative sign at a sampled
point by the strict Boolean comparison 0 < d, under which an estimate
that is exactly zero, nan or negative is classified alike (the
classification is false); whenever the estimates at both endpoints
are classified false, the search with a positive budget returns an
absent value in its first iteration, for every behavior of the
function elsewhere, the midpoint included. -/
theorem claim10_nonpositive_sign_none (f : FP → FP) (l u : FP) (n : ℕ)
    (delta epsilon : FP)
    (hl : FP.ltb (FP.fin 0) (first_derivative f l delta) = false)
    (hu : FP.ltb (FP.fin 0) (first_derivative f u delta) = false) :
    search_extrema_bisection f (l, u) (n + 1) delta epsilon = none := by
  simp only [search_extrema_bisection]
  rw [if_pos (hl.trans hu.symm)]

/-- C10 witness: the parabola -(x - 3)^2 with lower endpoint exactly
at its vertex (derivative estimate exactly zero) and upper endpoint 10
(derivative estimate -14) is rejected with an absent value. -/
theorem claim10_nonpositive_sign_none_witness :
    search_extrema_bisection quadDown (FP.fin 3, FP.fin 10) 8
      (FP.fin (1/10000)) (FP.fin (1/10000000)) = none :=
  claim10_nonpositive_sign_none quadDown (FP.fin 3) (FP.fin 10) 7
    (FP.fin (1/10000)) (FP.fin (1/10000000))
    (by norm_num [first_derivative, quadDown])
    (by norm_num [first_derivative, quadDown])

/-- If no pass of the bisection loop performs an early return, the
search result is the midpoint of the bracket left after the last
narrowing. -/
theorem bisection_of_narrow (f : FP → FP) (delta epsilon : FP) (n : ℕ) :
    ∀ r r2, bisect_narrow f delta epsilon n r = some r2 →
      search_extrema_bisection f r n delta epsilon =
        some ((r2.2 - r2.1) * FP.fin (1/2) + r2.1) := by
  induction n with
  | zero =>
    intro r r2 h
    simp only [bisect_narrow, Option.some.injEq] at h
    subst h
    rfl
  | succ n ih =>
    intro r r2 h
    simp only [bisect_narrow] at h
    rw [bisection_succ]
    cases hs : bisect_step f delta epsilon r with
    | inl v => rw [hs] at h; simp at h
    | inr r1 =>
      rw [hs] at h
      simpa using ih r1 r2 h

/-- If every Newton iterate within the budget fails the epsilon test,
the search reports an absent value. -/
theorem newton_exhaustion (f : FP → FP) (delta epsilon : FP) (n : ℕ) :
    ∀ x0, (∀ k, k < n →
        FP.ltb (FP.abs (first_derivative f
          (newton_iterate f delta (k + 1) x0) delta)) epsilon = false) →
      search_extrema_newton f x0 n delta epsilon = none := by
  induction n with
  | zero => intro x0 _; rfl
  | succ n ih =>
    intro x0 h
    have h0 := h 0 (Nat.succ_pos n)
    have h0x : FP.ltb (FP.abs (first_derivative f
        (newton_update f delta x0) delta)) epsilon = false := h0
    simp only [search_extrema_newton, h0x, Bool.false_eq_true, if_false]
    exact ih (newton_update f delta x0) (fun k hk => h (k + 1) (by omega))

/-- C5: the two exhaustion policies are distinct.  If the bisection
narrows through all of its iterations without an early return it
returns the midpoint of the final bracket, never an absent value,
whereas Newton, when every iterate within the budget fails the epsilon
test, always returns an absent value. -/
theorem claim5_exhaustion_policies :
    (∀ (f : FP → FP) (delta epsilon : FP) (n : ℕ) (r r2 : FP × FP),
      bisect_narrow f delta epsilon n r = some r2 →
        search_extrema_bisection f r n delta epsilon =
          some ((r2.2 - r2.1) * FP.fin (1/2) + r2.1)) ∧
    (∀ (f : FP → FP) (delta epsilon : FP) (n : ℕ) (x0 : FP),
      (∀ k, k < n →
        FP.ltb (FP.abs (first_derivative f
          (newton_iterate f delta (k + 1) x0) delta)) epsilon = false) →
      search_extrema_newton f x0 n delta epsilon = none) :=
  ⟨fun f delta epsilon n r r2 h => bisection_of_narrow f delta epsilon n r r2 h,
   fun f delta epsilon n x0 h => newton_exhaustion f delta epsilon n x0 h⟩

/-- The instrumented Newton search computes the same result as the
plain one. -/
theorem newton_instr_fst (f : FP → FP) (delta epsilon : FP) (n : ℕ) :
    ∀ x0, (search_extrema_newton_instr f x0 n delta epsilon).1 =
      search_extrema_newton f x0 n delta epsilon := by
  induction n with
  | zero => intro x0; rfl
  | succ n ih =>
    intro x0
    simp only [search_extrema_newton_instr, search_extrema_newton]
    by_cases h : FP.ltb (FP.abs (first_derivative f
        (newton_update f delta x0) delta)) epsilon = true
    · simp [h]
    · simp only [Bool.not_eq_true] at h
      simp [h, ih]

/-- The Newton loop executes at most its iteration budget. -/
theorem newton_instr_passes (f : FP → FP) (delta epsilon : FP) (n : ℕ) :
    ∀ x0, (search_extrema_newton_instr f x0 n delta epsilon).2 ≤ n := by
  induction n with
  | zero => intro x0; exact Nat.le_refl 0
  | succ n ih =>
    intro x0
    simp only [search_extrema_newton_instr]
    by_cases h : FP.ltb (FP.abs (first_derivative f
        (newton_update f delta x0) delta)) epsilon = true
    · simp [h]
    · simp only [Bool.not_eq_true] at h
      simp only [h, Bool.false_eq_true, if_false]
      exact Nat.succ_le_succ (ih (newton_update f delta x0))

/-- The instrumented bisection computes the same result as the plain
one. -/
theorem bisect_instr_fst (f : FP → FP) (delta epsilon : FP) (n : ℕ) :
    ∀ r, (search_extrema_bisection_instr f r n delta epsilon).1 =
      search_extrema_bisection f r n delta epsilon := by
  induction n with
  | zero => intro r; rfl
  | succ n ih =>
    intro r
    rw [bisection_succ]
    simp only [search_extrema_bisection_instr]
    cases hs : bisect_step f delta epsilon r with
    | inl v => simp [hs]
    | inr r1 => simp [hs, ih]

/-- The bisection loop executes at most its iteration budget. -/
theorem bisect_instr_passes (f : FP → FP) (delta epsilon : FP) (n : ℕ) :
    ∀ r, (search_extrema_bisection_instr f r n delta epsilon).2 ≤ n := by
  induction n with
  | zero => intro r; exact Nat.le_refl 0
  | succ n ih =>
    intro r
    simp only [search_extrema_bisection_instr]
    cases hs : bisect_step f delta epsilon r with
    | inl v => simp [hs]
    | inr r1 =>
      simp only [hs]
      exact Nat.succ_le_succ (ih r1)

/-- C8: for every evaluable function, starting point or bracket, and
parameters, both searches are total functions into an optional result
(they are plain Lean functions, so no exception or fault exists), and
the instrumented variants show that the number of loop passes executed
never exceeds max_iters for either search, while computing the same
result as the plain definitions. -/
theorem claim8_termination_bounds (f : FP → FP) (x0 : FP) (r : FP × FP)
    (n : ℕ) (delta epsilon : FP) :
    (search_extrema_newton_instr f x0 n delta epsilon).1 =
      search_extrema_newton f x0 n delta epsilon ∧
    (search_extrema_newton_instr f x0 n delta epsilon).2 ≤ n ∧
    (search_extrema_bisection_instr f r n delta epsilon).1 =
      search_extrema_bisection f r n delta epsilon ∧
    (search_extrema_bisection_instr f r n delta epsilon).2 ≤ n :=
  ⟨newton_instr_fst f delta epsilon n x0, newton_instr_passes f delta epsilon n x0,
   bisect_instr_fst f delta epsilon n r, bisect_instr_passes f delta epsilon n r⟩

/-- Evaluation rule: negative infinity plus a finite value. -/
@[simp] theorem FP.ninf_add_fin (b : ℚ) : FP.ninf + FP.fin b = FP.ninf := rfl

/-- Evaluation rule: negative infinity minus a finite value. -/
@[simp] theorem FP.ninf_sub_fin (b : ℚ) : FP.ninf - FP.fin b = FP.ninf := rfl

/-- Evaluation rule: negative infinity minus itself is nan. -/
@[simp] theorem FP.ninf_sub_ninf : FP.ninf - FP.ninf = FP.nan := rfl

/-- Evaluation rule: a finite value minus positive infinity. -/
@[simp] theorem FP.fin_sub_pinf (a : ℚ) : FP.fin a - FP.pinf = FP.ninf := rfl

/-- Evaluation rule: a finite value minus negative infinity. -/
@[simp] theorem FP.fin_sub_ninf (a : ℚ) : FP.fin a - FP.ninf = FP.pinf := rfl

/-- Evaluation rule: anything minus nan is nan. -/
@[simp] theorem FP.sub_nan (x : FP) : x - FP.nan = FP.nan := by
  cases x <;> rfl

/-- Evaluation rule: nan plus anything is nan. -/
@[simp] theorem FP.nan_add (x : FP) : FP.nan + x = FP.nan := by
  cases x <;> rfl

/-- Evaluation rule: nan minus anything is nan. -/
@[simp] theorem FP.nan_sub (x : FP) : FP.nan - x = FP.nan := by
  cases x <;> rfl

/-- Evaluation rule: nan times anything is nan. -/
@[simp] theorem FP.nan_mul (x : FP) : FP.nan * x = FP.nan := by
  cases x <;> rfl

/-- Evaluation rule: anything times nan is nan. -/
@[simp] theorem FP.mul_nan (x : FP) : x * FP.nan = FP.nan := by
  cases x <;> rfl

/-- Evaluation rule: anything plus nan is nan. -/
@[simp] theorem FP.add_nan (x : FP) : x + FP.nan = FP.nan := by
  cases x <;> rfl

/-- Evaluation rule: nan divided by anything is nan. -/
@[simp] theorem FP.nan_div (x : FP) : FP.nan / x = FP.nan := by
  cases x <;> rfl

/-- Evaluation rule: anything divided by nan is nan. -/
@[simp] theorem FP.div_nan (x : FP) : x / FP.nan = FP.nan := by
  cases x <;> rfl

/-- Evaluation rule: a positive finite value divided by finite zero. -/
@[simp] theorem FP.pos_div_fin_zero (a : ℚ) (h : 0 < a) :
    FP.fin a / FP.fin 0 = FP.pinf := by
  show FP.div (FP.fin a) (FP.fin 0) = _
  simp [FP.div, h, h.ne.symm]

/-- Evaluation rule: a negative finite value divided by finite zero. -/
@[simp] theorem FP.neg_div_fin_zero (a : ℚ) (h : a < 0) :
    FP.fin a / FP.fin 0 = FP.ninf := by
  show FP.div (FP.fin a) (FP.fin 0) = _
  simp [FP.div, h.ne, not_lt.mpr h.le]

/-- Evaluation rule: finite zero divided by finite zero is nan. -/
@[simp] theorem FP.zero_div_fin_zero : FP.fin 0 / FP.fin 0 = FP.nan := by
  show FP.div (FP.fin 0) (FP.fin 0) = _
  simp [FP.div]

/-- Evaluation rule: a positive finite value times negative
infinity. -/
@[simp] theorem FP.pos_mul_ninf (a : ℚ) (h : 0 < a) :
    FP.fin a * FP.ninf = FP.ninf := by
  show FP.mul (FP.fin a) FP.ninf = _
  simp [FP.mul, h, h.ne.symm]

/-- Evaluation rule: a positive finite value times positive
infinity. -/
@[simp] theorem FP.pos_mul_pinf (a : ℚ) (h : 0 < a) :
    FP.fin a * FP.pinf = FP.pinf := by
  show FP.mul (FP.fin a) FP.pinf = _
  simp [FP.mul, h, h.ne.symm]

/-- Evaluation rule: nan has no absolute value. -/
@[simp] theorem FP.abs_nan : FP.nan.abs = FP.nan := rfl

/-- Evaluation rule: comparisons with nan on the left are false. -/
@[simp] theorem FP.ltb_nan_left (x : FP) : FP.ltb FP.nan x = false := by
  cases x <;> rfl

/-- Evaluation rule: comparisons with nan on the right are false. -/
@[simp] theorem FP.ltb_nan_right (x : FP) : FP.ltb x FP.nan = false := by
  cases x <;> rfl

/-- C5 witness: the parabola -(x - 3)^2 on the bracket (0, 10) narrows
through a budget of two iterations and the search returns the midpoint
of the final bracket (5/2, 5); Newton on the identity function from
x0 = 1 (whose zero second derivative drives the iterates through
infinities into nan) exhausts a budget of three iterations and returns
an absent value. -/
theorem claim5_exhaustion_policies_witness :
    search_extrema_bisection quadDown (FP.fin 0, FP.fin 10) 2
      (FP.fin (1/10000)) (FP.fin (1/10000000)) =
      some ((FP.fin 5 - FP.fin (5/2)) * FP.fin (1/2) + FP.fin (5/2)) ∧
    search_extrema_newton (fun x => x) (FP.fin 1) 3
      (FP.fin (1/10000)) (FP.fin (1/10000000)) = none :=
  ⟨claim5_exhaustion_policies.1 quadDown (FP.fin (1/10000)) (FP.fin (1/10000000))
      2 (FP.fin 0, FP.fin 10) (FP.fin (5/2), FP.fin 5)
      (by norm_num [bisect_narrow, bisect_step, first_derivative, quadDown]),
   claim5_exhaustion_policies.2 (fun x => x) (FP.fin (1/10000))
      (FP.fin (1/10000000)) 3 (FP.fin 1)
      (by
        intro k hk
        interval_cases k <;>
          norm_num [newton_iterate, newton_update, first_derivative,
            second_derivative])⟩

/-- C2: for every power interpretation, every collections-per-year
value and every coefficient set, projected_wallet_price computes
exactly the specification formula with g = (1 + rate/n)^n, namely
principal * g^years - (n * avg_fees) * (g^years - 1) / (g - 1); and
when the computed g equals one, the denominator g - 1 is the finite
zero, so the division and with it the whole result is non-finite:
the degenerate case is not special-cased. -/
theorem claim2_projected_value_formula (pw : FP → FP → FP) (n : FP)
    (coefs : CompoundModelCoefs) :
    projected_wallet_price pw n coefs = spec_projected_value pw n coefs ∧
    (pw (coefs.rate / n + FP.fin 1) n = FP.fin 1 →
      (projected_wallet_price pw n coefs).isFinite = false) := by
  constructor
  · simp only [projected_wallet_price, spec_projected_value]
    rw [FP.add_comm (coefs.rate / n) (FP.fin 1)]
  · intro hg
    simp only [projected_wallet_price]
    rw [hg, FP.sub_self_fin 1]
    exact FP.sub_not_finite _ _ (FP.div_zero_not_finite _)

/-- C2 witness: with the power interpretation powfModel and the
zero-rate coefficient set cdeg, the computed g is one and the
projected value is non-finite. -/
theorem claim2_projected_value_formula_witness :
    (projected_wallet_price powfModel (FP.fin 1) cdeg).isFinite = false :=
  (claim2_projected_value_formula powfModel (FP.fin 1) cdeg).2
    (by norm_num [powfModel, cdeg])

/-- C7 counterexample: the claim fails at the fee-free zero-rate
coefficient set cdeg with one collection per year: there g = 1, the
code divides zero by zero and returns nan, while simple compound
interest is the finite principal 100. -/
theorem claim7_fee_free_counterexample :
    ¬ (projected_wallet_price powfModel (FP.fin 1) cdeg =
      cdeg.initial_principal *
        powfModel (FP.fin 1 + cdeg.rate / FP.fin 1) (FP.fin 1 * cdeg.years)) := by
  norm_num [projected_wallet_price, powfModel, cdeg]
  intro h
  exact FP.noConfusion h

/-- C7 amended: for every n > 0 and every coefficient set with
avg_fees = 0, provided the computed g = (1 + rate/n)^n is a finite
value different from one, g^years is finite, and the power
interpretation satisfies the power law ((1 + rate/n)^n)^years
= (1 + rate/n)^(n * years) at these arguments -- which exact real
powers do on this domain, but which the g = 1 counterexample
refutes in general -- the projected value reduces to simple compound
interest principal * (1 + rate/n)^(n * years). -/
theorem claim7_fee_free_amended (pw : FP → FP → FP) (n : ℚ)
    (coefs : CompoundModelCoefs) (gq gyq : ℚ)
    (_hn : 0 < n)
    (hfees : coefs.avg_fees = FP.fin 0)
    (hg : pw (coefs.rate / FP.fin n + FP.fin 1) (FP.fin n) = FP.fin gq)
    (hg1 : gq ≠ 1)
    (hgy : pw (FP.fin gq) coefs.years = FP.fin gyq)
    (hcomp : pw (FP.fin gq) coefs.years =
      pw (FP.fin 1 + coefs.rate / FP.fin n) (FP.fin n * coefs.years)) :
    projected_wallet_price pw (FP.fin n) coefs =
      coefs.initial_principal *
        pw (FP.fin 1 + coefs.rate / FP.fin n) (FP.fin n * coefs.years) := by
  have h1 : gq - 1 ≠ 0 := sub_ne_zero.mpr hg1
  simp only [projected_wallet_price]
  rw [hg, hfees, ← hcomp, hgy]
  simp only [FP.mul_fin, FP.sub_fin]
  rw [FP.div_fin _ _ h1]
  norm_num [FP.sub_zero_right]

/-- C7 witness for the amended claim: one collection per year, rate
1/10, two years, no fees, principal 100: g = 11/10 is finite and not
one, g^2 = 121/100, and the projected value is exactly
100 * (11/10)^2 = 121, the simple compound interest. -/
theorem claim7_fee_free_witness :
    projected_wallet_price powfModel (FP.fin 1) cfee0 =
      cfee0.initial_principal *
        powfModel (FP.fin 1 + cfee0.rate / FP.fin 1) (FP.fin 1 * cfee0.years) :=
  claim7_fee_free_amended powfModel 1 cfee0 (11/10) (121/100)
    (by norm_num)
    rfl
    (by norm_num [powfModel, cfee0])
    (by norm_num)
    (by norm_num [powfModel, cfee0])
    (by norm_num [powfModel, cfee0])
